import Mathlib

/-!
Verification of the llm-interface repository's normalization / retry / cache core.

The JavaScript sources `src/interfaces/gemini.js` and `src/interfaces/writer.js` are
embedded shallowly below: pure functions become Lean functions, the mutation performed
by `Array.prototype.shift` / `unshift` is rendered as explicit state passing, the
asynchronous retry loop becomes a structurally recursive function over the remaining
attempt budget, and each provider invocation is an entry of an oracle
`attempt : Nat -> Except String String` (the k-th invocation either throws or yields
the raw response text).  JavaScript numbers are modelled as rationals, JavaScript
truthiness is made explicit wherever the source branches on it.
-/

set_option maxHeartbeats 1000000

namespace LlmInterface

/-- A chat message as the library handles it: a `role` string and a `content` string.
The sources treat roles as plain strings compared against `"system"`, `"user"` and
`"assistant"`. -/
structure Message where
  role : String
  content : String
  deriving DecidableEq, Repr

/-- A JavaScript value as it can flow out of `sendMessage`: the raw response text
(`Json.str`) or, when `response_format = "json_object"` was requested, whatever
`JSON.parse` produced (any JSON value, or `null` after a parse failure). -/
inductive Json where
  | null : Json
  | bool (b : Bool) : Json
  | num (q : ℚ) : Json
  | str (s : String) : Json
  | arr (elems : List Json) : Json
  | obj (fields : List (String × Json)) : Json

/-- JavaScript truthiness of a `Json` value: `null`, `false`, `0` and `""` are falsy,
everything else (including every array and object) is truthy. -/
def Json.truthy : Json → Bool
  | .null => false
  | .bool b => b
  | .num q => decide (q ≠ 0)
  | .str s => decide (s ≠ "")
  | .arr _ => true
  | .obj _ => true

/-- Escape one character for a JSON string literal. -/
def escapeChar (c : Char) : String :=
  if c = '"' then "\\\""
  else if c = '\\' then "\\\\"
  else if c = '\n' then "\\n"
  else if c = '\t' then "\\t"
  else if c = '\r' then "\\r"
  else String.singleton c

/-- Render a string as a quoted JSON string literal. -/
def quoteStr (s : String) : String :=
  "\"" ++ String.join (s.data.map escapeChar) ++ "\""

/-- Deterministic rendering of a rational number for cache-key serialization.
JavaScript's decimal number formatting is abstracted to `numerator/denominator`;
the cache key only has to be a stable deterministic function of the request. -/
def qstr (q : ℚ) : String :=
  toString q.num ++ "/" ++ toString q.den

/-- Comma-join a list of strings, as in a JSON array body. -/
def joinComma : List String → String
  | [] => ""
  | [s] => s
  | s :: rest => s ++ "," ++ joinComma rest

/-! ### JSON.parse, modelled

`JSON.parse` is a JavaScript runtime builtin, not code of this repository.
The repository only calls it inside `try { ... } catch`, so the embedding needs a
computable parsing function that can fail. -/

namespace JsonParse

/-- JSON insignificant whitespace. -/
def isWs (c : Char) : Bool :=
  c == ' ' || c == '\t' || c == '\n' || c == '\r'

/-- Drop leading JSON whitespace. -/
def skipWs : List Char → List Char
  | c :: cs => if isWs c then skipWs cs else c :: cs
  | [] => []

/-- Parse the body of a JSON string after the opening quote: returns the decoded
characters and the remaining input after the closing quote. -/
def parseStringBody : List Char → Option (List Char × List Char)
  | [] => none
  | c :: cs =>
    if c == '"' then some ([], cs)
    else if c == '\\' then
      match cs with
      | [] => none
      | e :: cs2 =>
        let ec : Option Char :=
          if e == '"' then some '"'
          else if e == '\\' then some '\\'
          else if e == '/' then some '/'
          else if e == 'n' then some '\n'
          else if e == 't' then some '\t'
          else if e == 'r' then some '\r'
          else if e == 'b' then some '\x08'
          else if e == 'f' then some '\x0c'
          else none
        match ec with
        | none => none
        | some ch =>
          match parseStringBody cs2 with
          | some (content, rest) => some (ch :: content, rest)
          | none => none
    else
      match parseStringBody cs with
      | some (content, rest) => some (c :: content, rest)
      | none => none

/-- Split a maximal run of decimal digits off the front of the input. -/
def takeDigits : List Char → List Char × List Char
  | c :: cs =>
    if c.isDigit then
      let p := takeDigits cs
      (c :: p.1, p.2)
    else ([], c :: cs)
  | [] => ([], [])

/-- Numeric value of a run of decimal digits. -/
def digitsVal (ds : List Char) : Nat :=
  ds.foldl (fun n c => n * 10 + (c.toNat - 48)) 0

/-- Parse a JSON number (optional minus sign, integer part, optional fraction part;
exponents and other extensions are rejected, which only makes the modelled parser
fail on inputs the claims never exercise). -/
def parseNumber (cs : List Char) : Option (ℚ × List Char) :=
  let signSplit : Bool × List Char :=
    match cs with
    | c :: rest => if c == '-' then (true, rest) else (false, cs)
    | [] => (false, [])
  let neg := signSplit.1
  let ipSplit := takeDigits signSplit.2
  if ipSplit.1 = [] then none
  else
    match ipSplit.2 with
    | '.' :: rest =>
      let fpSplit := takeDigits rest
      if fpSplit.1 = [] then none
      else
        let q : ℚ :=
          (digitsVal ipSplit.1 : ℚ) + (digitsVal fpSplit.1 : ℚ) / ((10 : ℚ) ^ fpSplit.1.length)
        some (if neg then -q else q, fpSplit.2)
    | other => some (if neg then -(digitsVal ipSplit.1 : ℚ) else (digitsVal ipSplit.1 : ℚ), other)

/-- Consume an expected literal character sequence. -/
def expectChars : List Char → List Char → Option (List Char)
  | [], rest => some rest
  | p :: ps, c :: rest => if c == p then expectChars ps rest else none
  | _ :: _, [] => none

mutual

/-- Parse one JSON value (fuel-indexed recursive descent). -/
def parseValue : Nat → List Char → Option (Json × List Char)
  | 0, _ => none
  | fuel + 1, cs =>
    match skipWs cs with
    | [] => none
    | c :: rest =>
      if c == '"' then
        match parseStringBody rest with
        | some (content, r) => some (.str ⟨content⟩, r)
        | none => none
      else if c == '[' then
        match skipWs rest with
        | ']' :: r => some (.arr [], r)
        | r2 =>
          match parseElems fuel r2 with
          | some (xs, r3) => some (.arr xs, r3)
          | none => none
      else if c == '\x7b' then
        match skipWs rest with
        | '\x7d' :: r => some (.obj [], r)
        | r2 =>
          match parseFields fuel r2 with
          | some (fs, r3) => some (.obj fs, r3)
          | none => none
      else if c == 't' then
        match expectChars ['r', 'u', 'e'] rest with
        | some r => some (.bool true, r)
        | none => none
      else if c == 'f' then
        match expectChars ['a', 'l', 's', 'e'] rest with
        | some r => some (.bool false, r)
        | none => none
      else if c == 'n' then
        match expectChars ['u', 'l', 'l'] rest with
        | some r => some (.null, r)
        | none => none
      else
        match parseNumber (c :: rest) with
        | some (q, r) => some (.num q, r)
        | none => none

/-- Parse the non-empty element list of a JSON array, up to and including `]`. -/
def parseElems : Nat → List Char → Option (List Json × List Char)
  | 0, _ => none
  | fuel + 1, cs =>
    match parseValue fuel cs with
    | none => none
    | some (x, r) =>
      match skipWs r with
      | ',' :: r2 =>
        match parseElems fuel r2 with
        | some (xs, r3) => some (x :: xs, r3)
        | none => none
      | ']' :: r2 => some ([x], r2)
      | _ => none

/-- Parse the non-empty field list of a JSON object, up to and including the
closing brace. -/
def parseFields : Nat → List Char → Option (List (String × Json) × List Char)
  | 0, _ => none
  | fuel + 1, cs =>
    match skipWs cs with
    | '"' :: r =>
      match parseStringBody r with
      | none => none
      | some (key, r2) =>
        match skipWs r2 with
        | ':' :: r3 =>
          match parseValue fuel r3 with
          | none => none
          | some (v, r4) =>
            match skipWs r4 with
            | ',' :: r5 =>
              match parseFields fuel r5 with
              | some (fs, r6) => some ((⟨key⟩, v) :: fs, r6)
              | none => none
            | '\x7d' :: r5 => some ([(⟨key⟩, v)], r5)
            | _ => none
        | _ => none
    | _ => none

end

end JsonParse

/-- Modelled from the spec: `JSON.parse`, the JavaScript runtime builtin the adapter
calls when the caller requested `json_object` format (gemini.js line 126).  It is not
repository code; it parses a complete JSON text, returning `none` exactly where the
builtin would throw a `SyntaxError`. -/
def jsonParse (s : String) : Option Json :=
  match JsonParse.parseValue (s.length * 2 + 8) s.data with
  | some (j, rest) => if JsonParse.skipWs rest = [] then some j else none
  | none => none

/-! ### The Writer message normalizer (`src/interfaces/writer.js`) -/

namespace Writer

/-- The exact system greeting that `updateMessageObject` removes when it is the first
message (writer.js line 34). -/
def greetingContent : String := "You are a helpful assistant."

/-- The synthetic user message prepended when the first message is still a system
message (writer.js line 41). -/
def helloMessage : Message := ⟨"user", "Hello!"⟩

/-- writer.js lines 31-42: drop the specific system greeting when it is the first
message (`messages.shift()`), then, if the first remaining message is still a system
message, prepend `helloMessage` (`messages.unshift(...)`).  On an empty messages
array the source throws (`messages[0].role` on `undefined`), hence `none`. -/
def fixLeading : List Message → Option (List Message)
  | [] => none
  | first :: rest =>
    let afterDrop :=
      if first.role = "system" ∧ first.content = greetingContent then rest
      else first :: rest
    match afterDrop with
    | [] => some []
    | m :: ms => some (if m.role = "system" then helloMessage :: m :: ms else m :: ms)

/-- writer.js lines 45-51: `messages.map((msg, index) => ...)` rendered as an
index-passing recursion.  The message at index `i` keeps its content (`{ ...msg }`)
and is relabeled `"user"` when `i` is even and `"assistant"` when `i` is odd. -/
def relabelFrom : Nat → List Message → List Message
  | _, [] => []
  | i, m :: ms =>
    (if i % 2 = 0 then ⟨"user", m.content⟩ else ⟨"assistant", m.content⟩) ::
      relabelFrom (i + 1) ms

/-- The full relabeling pass, starting at index 0. -/
def relabel (messages : List Message) : List Message :=
  relabelFrom 0 messages

/-- writer.js lines 28-57, with the mutation made explicit.  `shift`/`unshift`
operate in place on the very array aliased from `messageObject.messages`, while the
relabeling `map` allocates a fresh array for the returned object.  State-passing
rendering: the first component is the content of the caller's `messages` array after
the call returns, the second is the `messages` list of the returned object.  (The
returned object spreads the remaining fields of the input object unchanged; only the
`messages` field is modelled.) -/
def updateMessageObjectCall (messages : List Message) :
    Option (List Message × List Message) :=
  (fixLeading messages).map (fun fl => (fl, relabel fl))

/-- The `messages` list of the object returned by `updateMessageObject`. -/
def updateMessageObject (messages : List Message) : Option (List Message) :=
  (updateMessageObjectCall messages).map (fun p => p.2)

/-- The content of the caller's `messages` array after `updateMessageObject`
returns: `shift`/`unshift` have been applied to it in place. -/
def callerMessagesAfter (messages : List Message) : Option (List Message) :=
  (updateMessageObjectCall messages).map (fun p => p.1)

end Writer

/-! ### The Gemini adapter (`src/interfaces/gemini.js`) -/

/-- One element of a `parts` array in the Gemini wire format. -/
structure Part where
  text : String
  deriving DecidableEq, Repr

/-- One history entry in the Gemini wire format: `{ role, parts: [{ text }] }`. -/
structure HistoryEntry where
  role : String
  parts : List Part
  deriving DecidableEq, Repr

/-- The `generationConfig` object built by `convertDataStructure` (gemini.js lines
51-55): the spread generation options, then `maxOutputTokens`, then
`responseMimeType` when `responseFormat` is truthy. -/
structure GenerationConfig where
  temperature : ℚ
  topP : ℚ
  topK : ℚ
  maxOutputTokens : ℚ
  responseMimeType : Option String
  deriving DecidableEq, Repr

/-- The `{ history, prompt, generationConfig }` structure returned by
`convertDataStructure`. -/
structure ConvertedData where
  history : List HistoryEntry
  prompt : String
  generationConfig : GenerationConfig
  deriving DecidableEq, Repr

/-- The generation options object `{ temperature, topP, topK }` that `sendMessage`
passes to `convertDataStructure` (gemini.js lines 87-91). -/
structure GenOptions where
  temperature : ℚ
  topP : ℚ
  topK : ℚ
  deriving DecidableEq, Repr

/-- A structured message object: an optional `model` field and a `messages` list.
(A bare string message is first wrapped by `returnMessageObject`, a utility outside
the embedded sources; the embedding takes the structured object.) -/
structure MessageObject where
  model : Option String
  messages : List Message
  deriving DecidableEq, Repr

/-- The `options` argument of `sendMessage`; absent fields are `none`
(JavaScript `undefined`). -/
structure Options where
  model : Option String
  max_tokens : Option ℚ
  response_format : Option String
  temperature : Option ℚ
  topP : Option ℚ
  topK : Option ℚ
  deriving DecidableEq, Repr

/-- The `interfaceOptions` argument: either a bare number (shorthand for the cache
timeout, gemini.js lines 69-72) or an options object. -/
inductive InterfaceOptions where
  | num (n : ℚ)
  | obj (cacheTimeoutSeconds : Option ℚ) (retryAttempts : Option Nat)
      (retryMultiplier : Option ℚ)
  deriving DecidableEq, Repr

/-- JavaScript `a || d` for an optional number `a`: the default wins when `a` is
absent (`undefined`) or `0` (falsy). -/
def jsOrQ (a : Option ℚ) (d : ℚ) : ℚ :=
  match a with
  | some q => if q = 0 then d else q
  | none => d

/-- JavaScript `a || d` for an optional string `a`: the default wins when `a` is
absent (`undefined`) or the empty string (falsy). -/
def jsOrS (a : Option String) (d : String) : String :=
  match a with
  | some s => if s = "" then d else s
  | none => d

/-- `cacheTimeoutSeconds` as resolved by gemini.js lines 69-72: a bare number is the
timeout itself, otherwise the object's `cacheTimeoutSeconds` field. -/
def InterfaceOptions.cacheTTL : InterfaceOptions → Option ℚ
  | .num n => some n
  | .obj c _ _ => c

/-- `interfaceOptions.retryAttempts || 0` (gemini.js line 109); reading the field off
a bare number yields `undefined`. -/
def InterfaceOptions.retryAttemptsOf : InterfaceOptions → Nat
  | .num _ => 0
  | .obj _ r _ => r.getD 0

/-- `interfaceOptions.retryMultiplier || 0.3` (gemini.js line 148); reading the field
off a bare number yields `undefined`, and a supplied `0` is falsy. -/
def InterfaceOptions.retryMultiplierOf : InterfaceOptions → ℚ
  | .num _ => 0.3
  | .obj _ _ m => jsOrQ m 0.3

/-- Truthiness of the resolved `cacheTimeoutSeconds` (`if (cacheTimeoutSeconds)`,
gemini.js lines 101 and 132): present and nonzero. -/
def ttlTruthy : Option ℚ → Bool
  | some t => decide (t ≠ 0)
  | none => false

/-- What `sendMessage` can throw: the `TypeError` raised inside
`convertDataStructure` on an empty messages list, or the last provider error
rethrown after retry exhaustion (gemini.js line 144). -/
inductive SendError where
  | emptyMessages : SendError
  | provider (e : String) : SendError
  deriving DecidableEq, Repr

namespace Gemini

/-- gemini.js lines 41-47 (second half): if the history is nonempty and its first
entry's role is not `'user'`, rewrite that role to `'user'`; later entries are left
untouched. -/
def forceFirstUser : List HistoryEntry → List HistoryEntry
  | [] => []
  | h :: hs => (if h.role = "user" then h else ⟨"user", h.parts⟩) :: hs

/-- gemini.js lines 35-57, `convertDataStructure`: all messages but the last become
`history` entries `{ role, parts: [{ text: content }] }` with the first role forced
to `'user'`; the prompt is the last message's content.  On an empty `messages` list
the source throws (`input.messages[-1]` is `undefined`, reading `.content` raises a
`TypeError`), hence `none`. -/
def convertDataStructure (input : MessageObject) (maxTokens : ℚ)
    (responseFormat : String) (gcOpts : GenOptions) : Option ConvertedData :=
  let history :=
    forceFirstUser (input.messages.dropLast.map (fun m => ⟨m.role, [⟨m.content⟩]⟩))
  match input.messages.getLast? with
  | none => none
  | some last =>
    let responseMimeType :=
      if responseFormat = "json_object" then "application/json" else "text/plain"
    some ⟨history, last.content,
      ⟨gcOpts.temperature, gcOpts.topP, gcOpts.topK, maxTokens,
        if responseFormat = "" then none else some responseMimeType⟩⟩

/-- gemini.js lines 87-91: the generation options passed to `convertDataStructure`,
each built with `||` so a falsy caller value (in particular `0`) is replaced by the
default: temperature 0.9, topP 1, topK 1. -/
def buildGenerationConfigOptions (options : Options) : GenOptions :=
  ⟨jsOrQ options.temperature 0.9, jsOrQ options.topP 1, jsOrQ options.topK 1⟩

/-- gemini.js line 76: `let { max_tokens = 150 } = options` — a destructuring
default, applied only when the field is absent (`undefined`), so a caller-supplied
`0` is kept. -/
def maxTokensOf (options : Options) : ℚ :=
  options.max_tokens.getD 150

/-- gemini.js line 76: `let { response_format = 'text/plain' } = options`. -/
def responseFormatOf (options : Options) : String :=
  options.response_format.getD "text/plain"

/-- gemini.js lines 79-82: `selectedModel || options.model || config default`, where
`selectedModel` is the result of the external alias lookup
`returnModelByAlias(interfaceName, messageObject.model)` (a utility outside the
embedded sources, passed in as `aliasLookup`). -/
def resolveModel (aliasLookup : Option String → Option String) (defaultModel : String)
    (mo : MessageObject) (options : Options) : String :=
  jsOrS (aliasLookup mo.model) (jsOrS options.model defaultModel)

/-- The conversion `sendMessage` performs at gemini.js lines 83-92, with the
destructured option defaults applied. -/
def convertOf (mo : MessageObject) (options : Options) : Option ConvertedData :=
  convertDataStructure mo (maxTokensOf options) (responseFormatOf options)
    (buildGenerationConfigOptions options)

/-- Serialization of one history entry for the cache key. -/
def renderHistoryEntry (h : HistoryEntry) : String :=
  "\x7b\"role\":" ++ quoteStr h.role ++ ",\"parts\":[" ++
    joinComma (h.parts.map (fun p => "\x7b\"text\":" ++ quoteStr p.text ++ "\x7d")) ++
    "]\x7d"

/-- Serialization of the generation config for the cache key, in the key insertion
order of gemini.js lines 51-55. -/
def renderGenerationConfig (g : GenerationConfig) : String :=
  "\x7b\"temperature\":" ++ qstr g.temperature ++ ",\"topP\":" ++ qstr g.topP ++
    ",\"topK\":" ++ qstr g.topK ++ ",\"maxOutputTokens\":" ++ qstr g.maxOutputTokens ++
    (match g.responseMimeType with
     | some m => ",\"responseMimeType\":" ++ quoteStr m
     | none => "") ++ "\x7d"

/-- gemini.js lines 95-100: the cache key,
`JSON.stringify({ model, history, prompt, generationConfig })` — a deterministic
serialization of the resolved model and converted request. -/
def cacheKeyOf (model : String) (cd : ConvertedData) : String :=
  "\x7b\"model\":" ++ quoteStr model ++ ",\"history\":[" ++
    joinComma (cd.history.map renderHistoryEntry) ++ "],\"prompt\":" ++
    quoteStr cd.prompt ++ ",\"generationConfig\":" ++
    renderGenerationConfig cd.generationConfig ++ "\x7d"

/-- The cache key `sendMessage` derives for a given call, when the conversion
succeeds. -/
def derivedCacheKey (aliasLookup : Option String → Option String)
    (defaultModel : String) (mo : MessageObject) (options : Options) :
    Option String :=
  (convertOf mo options).map (cacheKeyOf (resolveModel aliasLookup defaultModel mo options))

/-- Everything terminal `sendMessage` can do: the value returned or error thrown,
how many times the provider was invoked, the backoff delays awaited (in
milliseconds, in order), how many times `getFromCache` was consulted, and the
`saveToCache` calls performed (key, value, ttl). -/
structure SendOutcome where
  result : Except SendError Json
  invocations : Nat
  delays : List ℚ
  cacheLookups : Nat
  cacheStores : List (String × Json × ℚ)

/-- gemini.js lines 111-154, the retry loop.  `remaining` is the current value of
the mutable `retryAttempts` counter, `currentRetry` the attempt index; the provider
invocation of iteration `currentRetry` is `attempt currentRetry`.  On success the
raw text is reshaped (`JSON.parse` under `json_object`, `null` on parse failure) and
cached when the timeout and the payload are both truthy; on failure the counter is
decremented, the error rethrown when it drops below zero, and otherwise a delay of
`(currentRetry + 1) * retryMultiplier * 1000` awaited. -/
def attemptLoop (attempt : Nat → Except String String) (response_format : String)
    (ttl : Option ℚ) (cacheKey : String) (retryMultiplier : ℚ) :
    Nat → Nat → SendOutcome
  | remaining, currentRetry =>
    match attempt currentRetry with
    | .ok raw =>
      let text : Json :=
        if response_format = "json_object" then (jsonParse raw).getD .null
        else .str raw
      let stores : List (String × Json × ℚ) :=
        match ttl with
        | some t => if t = 0 then [] else if text.truthy then [(cacheKey, text, t)] else []
        | none => []
      ⟨.ok text, 1, [], 0, stores⟩
    | .error e =>
      match remaining with
      | 0 => ⟨.error (.provider e), 1, [], 0, []⟩
      | r + 1 =>
        let delay := ((currentRetry : ℚ) + 1) * retryMultiplier * 1000
        let rest := attemptLoop attempt response_format ttl cacheKey retryMultiplier r
          (currentRetry + 1)
        ⟨rest.result, rest.invocations + 1, delay :: rest.delays, 0, rest.cacheStores⟩

/-- gemini.js lines 66-155, `sendMessage`, over a structured message object.
External collaborators are parameters: `aliasLookup` is `returnModelByAlias`,
`defaultModel` the provider config's default model name, `cache` the view of
unexpired cache entries at call time, and `attempt k` the outcome of the k-th
provider invocation. -/
def sendMessage (aliasLookup : Option String → Option String) (defaultModel : String)
    (cache : String → Option Json) (attempt : Nat → Except String String)
    (mo : MessageObject) (options : Options) (iopts : InterfaceOptions) : SendOutcome :=
  match convertOf mo options with
  | none => ⟨.error .emptyMessages, 0, [], 0, []⟩
  | some cd =>
    let cacheKey := cacheKeyOf (resolveModel aliasLookup defaultModel mo options) cd
    let run := attemptLoop attempt (responseFormatOf options) iopts.cacheTTL cacheKey
      iopts.retryMultiplierOf iopts.retryAttemptsOf 0
    if ttlTruthy iopts.cacheTTL then
      match cache cacheKey with
      | some v =>
        if v.truthy then ⟨.ok v, 0, [], 1, []⟩
        else ⟨run.result, run.invocations, run.delays, 1, run.cacheStores⟩
      | none => ⟨run.result, run.invocations, run.delays, 1, run.cacheStores⟩
    else run

end Gemini

/-! ### Helper lemmas about the retry loop and the send pipeline -/

namespace Gemini

lemma attemptLoop_all_fail (attempt : Nat → Except String String) (rf : String)
    (ttl : Option ℚ) (key : String) (mult : ℚ) (err : Nat → String) :
    ∀ r c, (∀ k, attempt (c + k) = .error (err (c + k))) →
      (attemptLoop attempt rf ttl key mult r c).invocations = r + 1 ∧
      (attemptLoop attempt rf ttl key mult r c).result =
        .error (.provider (err (c + r))) ∧
      (attemptLoop attempt rf ttl key mult r c).cacheStores = [] := by
  intro r
  induction r with
  | zero =>
    intro c hf
    have h0 : attempt c = .error (err c) := by simpa using hf 0
    rw [attemptLoop]
    simp [h0]
  | succ r ih =>
    intro c hf
    have h0 : attempt c = .error (err c) := by simpa using hf 0
    have hf' : ∀ k, attempt (c + 1 + k) = .error (err (c + 1 + k)) := by
      intro k
      have := hf (k + 1)
      rwa [show c + (k + 1) = c + 1 + k by omega] at this
    have hrec := ih (c + 1) hf'
    rw [attemptLoop]
    simp only [h0]
    refine ⟨by simpa using hrec.1, ?_, by simpa using hrec.2.2⟩
    have := hrec.2.1
    rwa [show c + 1 + r = c + (r + 1) by omega] at this

lemma attemptLoop_success_at (attempt : Nat → Except String String) (rf : String)
    (ttl : Option ℚ) (key : String) (mult : ℚ) :
    ∀ r c j raw, j ≤ r → (∀ k, k < j → ∃ e, attempt (c + k) = .error e) →
      attempt (c + j) = .ok raw →
      (attemptLoop attempt rf ttl key mult r c).invocations = j + 1 := by
  intro r
  induction r with
  | zero =>
    intro c j raw hj _ hok
    interval_cases j
    simp only [Nat.add_zero] at hok
    rw [attemptLoop]
    simp [hok]
  | succ r ih =>
    intro c j raw hj hfirst hok
    cases j with
    | zero =>
      simp only [Nat.add_zero] at hok
      rw [attemptLoop]
      simp [hok]
    | succ j =>
      obtain ⟨e, he⟩ := hfirst 0 (Nat.succ_pos j)
      have h0 : attempt c = .error e := by simpa using he
      have hfirst' : ∀ k, k < j → ∃ e, attempt (c + 1 + k) = .error e := by
        intro k hk
        obtain ⟨e', he'⟩ := hfirst (k + 1) (by omega)
        exact ⟨e', by rwa [show c + (k + 1) = c + 1 + k by omega] at he'⟩
      have hok' : attempt (c + 1 + j) = .ok raw := by
        rwa [show c + (j + 1) = c + 1 + j by omega] at hok
      have hrec := ih (c + 1) j raw (by omega) hfirst' hok'
      rw [attemptLoop]
      simp [h0, hrec]

lemma attemptLoop_delays_get (attempt : Nat → Except String String) (rf : String)
    (ttl : Option ℚ) (key : String) (mult : ℚ) :
    ∀ r c i d, (attemptLoop attempt rf ttl key mult r c).delays.get? i = some d →
      d = ((c : ℚ) + i + 1) * mult * 1000 := by
  intro r
  induction r with
  | zero =>
    intro c i d hd
    rw [attemptLoop] at hd
    cases hat : attempt c <;> simp [hat] at hd
  | succ r ih =>
    intro c i d hd
    rw [attemptLoop] at hd
    cases hat : attempt c with
    | ok raw => simp [hat] at hd
    | error e =>
      simp only [hat] at hd
      cases i with
      | zero =>
        simp at hd
        rw [← hd]
        push_cast
        ring
      | succ i =>
        simp only [List.get?_cons_succ] at hd
        have := ih (c + 1) i d hd
        rw [this]
        push_cast
        ring

lemma attemptLoop_stores (attempt : Nat → Except String String) (rf : String)
    (ttl : Option ℚ) (key : String) (mult : ℚ) :
    ∀ r c s, s ∈ (attemptLoop attempt rf ttl key mult r c).cacheStores →
      (∃ t, ttl = some t ∧ ¬t = 0 ∧ s.2.2 = t) ∧
      (attemptLoop attempt rf ttl key mult r c).result = .ok s.2.1 ∧
      s.2.1.truthy = true ∧ s.1 = key := by
  intro r
  induction r with
  | zero =>
    intro c s hs
    rw [attemptLoop] at hs ⊢
    cases hat : attempt c with
    | error e => simp [hat] at hs
    | ok raw =>
      simp only [hat] at hs ⊢
      cases httl : ttl with
      | none => simp [httl] at hs
      | some t =>
        simp only [httl] at hs
        by_cases ht : t = 0
        · simp [ht] at hs
        · by_cases htr : (if rf = "json_object" then (jsonParse raw).getD .null
              else .str raw).truthy = true
          · simp [ht, htr] at hs
            subst hs
            exact ⟨⟨t, rfl, ht, rfl⟩, rfl, htr, rfl⟩
          · simp [ht, htr] at hs
  | succ r ih =>
    intro c s hs
    rw [attemptLoop] at hs ⊢
    cases hat : attempt c with
    | ok raw =>
      simp only [hat] at hs ⊢
      cases httl : ttl with
      | none => simp [httl] at hs
      | some t =>
        simp only [httl] at hs
        by_cases ht : t = 0
        · simp [ht] at hs
        · by_cases htr : (if rf = "json_object" then (jsonParse raw).getD .null
              else .str raw).truthy = true
          · simp [ht, htr] at hs
            subst hs
            exact ⟨⟨t, rfl, ht, rfl⟩, rfl, htr, rfl⟩
          · simp [ht, htr] at hs
    | error e =>
      simp only [hat] at hs ⊢
      have := ih (c + 1) s (by simpa using hs)
      simpa using this

lemma convertOf_isSome (mo : MessageObject) (options : Options)
    (h : mo.messages ≠ []) : ∃ cd, convertOf mo options = some cd := by
  unfold convertOf convertDataStructure
  cases hl : mo.messages.getLast? with
  | none =>
    exact absurd (List.getLast?_eq_none_iff.mp hl) h
  | some last => exact ⟨_, rfl⟩

lemma sendMessage_no_hit (aliasLookup : Option String → Option String)
    (defaultModel : String) (cache : String → Option Json)
    (attempt : Nat → Except String String) (mo : MessageObject) (options : Options)
    (iopts : InterfaceOptions) (cd : ConvertedData)
    (hconv : convertOf mo options = some cd)
    (hcache : ∀ k, cache k = none) :
    (sendMessage aliasLookup defaultModel cache attempt mo options iopts).result =
      (attemptLoop attempt (responseFormatOf options) iopts.cacheTTL
        (cacheKeyOf (resolveModel aliasLookup defaultModel mo options) cd)
        iopts.retryMultiplierOf iopts.retryAttemptsOf 0).result ∧
    (sendMessage aliasLookup defaultModel cache attempt mo options iopts).invocations =
      (attemptLoop attempt (responseFormatOf options) iopts.cacheTTL
        (cacheKeyOf (resolveModel aliasLookup defaultModel mo options) cd)
        iopts.retryMultiplierOf iopts.retryAttemptsOf 0).invocations ∧
    (sendMessage aliasLookup defaultModel cache attempt mo options iopts).delays =
      (attemptLoop attempt (responseFormatOf options) iopts.cacheTTL
        (cacheKeyOf (resolveModel aliasLookup defaultModel mo options) cd)
        iopts.retryMultiplierOf iopts.retryAttemptsOf 0).delays ∧
    (sendMessage aliasLookup defaultModel cache attempt mo options iopts).cacheStores =
      (attemptLoop attempt (responseFormatOf options) iopts.cacheTTL
        (cacheKeyOf (resolveModel aliasLookup defaultModel mo options) cd)
        iopts.retryMultiplierOf iopts.retryAttemptsOf 0).cacheStores := by
  unfold sendMessage
  rw [hconv]
  cases htt : ttlTruthy iopts.cacheTTL <;> simp [htt, hcache]

end Gemini

/-! ### Claim theorems -/

/-- C1: with `retryAttempts = N` (default 0, resolved by
`InterfaceOptions.retryAttemptsOf`), when every provider attempt fails,
`sendMessage` invokes the provider exactly `N + 1` times and then propagates the
last attempt's error; and when attempt `j` is the first success, it stops after
exactly `j + 1` invocations, never retrying after a success. -/
theorem retry_attempts_exact (aliasLookup : Option String → Option String)
    (defaultModel : String) (cache : String → Option Json)
    (attempt : Nat → Except String String) (mo : MessageObject) (options : Options)
    (iopts : InterfaceOptions) (err : Nat → String)
    (hmsgs : mo.messages ≠ []) (hcache : ∀ k, cache k = none) :
    ((∀ k, attempt k = .error (err k)) →
      (Gemini.sendMessage aliasLookup defaultModel cache attempt mo options iopts).invocations
          = iopts.retryAttemptsOf + 1 ∧
      (Gemini.sendMessage aliasLookup defaultModel cache attempt mo options iopts).result
          = .error (.provider (err iopts.retryAttemptsOf))) ∧
    (∀ j raw, j ≤ iopts.retryAttemptsOf →
      (∀ k, k < j → ∃ e, attempt k = .error e) → attempt j = .ok raw →
      (Gemini.sendMessage aliasLookup defaultModel cache attempt mo options iopts).invocations
          = j + 1) := by
  obtain ⟨cd, hconv⟩ := Gemini.convertOf_isSome mo options hmsgs
  obtain ⟨hres, hinv, -, -⟩ :=
    Gemini.sendMessage_no_hit aliasLookup defaultModel cache attempt mo options iopts cd
      hconv hcache
  constructor
  · intro hfail
    have hf0 : ∀ k, attempt (0 + k) = .error (err (0 + k)) := by simpa using hfail
    have h := Gemini.attemptLoop_all_fail attempt (Gemini.responseFormatOf options)
      iopts.cacheTTL
      (Gemini.cacheKeyOf (Gemini.resolveModel aliasLookup defaultModel mo options) cd)
      iopts.retryMultiplierOf err iopts.retryAttemptsOf 0 hf0
    refine ⟨by rw [hinv, h.1], ?_⟩
    rw [hres]
    simpa using h.2.1
  · intro j raw hj hfirst hok
    have hfirst' : ∀ k, k < j → ∃ e, attempt (0 + k) = .error e := by simpa using hfirst
    have hok' : attempt (0 + j) = .ok raw := by simpa using hok
    have h := Gemini.attemptLoop_success_at attempt (Gemini.responseFormatOf options)
      iopts.cacheTTL
      (Gemini.cacheKeyOf (Gemini.resolveModel aliasLookup defaultModel mo options) cd)
      iopts.retryMultiplierOf iopts.retryAttemptsOf 0 j raw hj hfirst' hok'
    rw [hinv, h]

/-- C1 witness: with `retryAttempts = 2` and a provider failing every time with
`"boom"`, there are exactly 3 invocations and the error propagates. -/
theorem retry_attempts_exact_witness :
    (Gemini.sendMessage (fun _ => none) "gemini-1.5-flash" (fun _ => none)
        (fun _ => .error "boom") ⟨none, [⟨"user", "x"⟩]⟩
        ⟨none, none, none, none, none, none⟩ (.obj none (some 2) none)).invocations = 3 ∧
    (Gemini.sendMessage (fun _ => none) "gemini-1.5-flash" (fun _ => none)
        (fun _ => .error "boom") ⟨none, [⟨"user", "x"⟩]⟩
        ⟨none, none, none, none, none, none⟩ (.obj none (some 2) none)).result =
      .error (.provider "boom") :=
  (retry_attempts_exact (fun _ => none) "gemini-1.5-flash" (fun _ => none)
    (fun _ => .error "boom") ⟨none, [⟨"user", "x"⟩]⟩
    ⟨none, none, none, none, none, none⟩ (.obj none (some 2) none) (fun _ => "boom")
    (by decide) (fun _ => rfl)).1 (fun _ => rfl)

/-- Case analysis of where `sendMessage`'s recorded delays come from: either no
delay was awaited at all, or they are exactly the retry loop's delays. -/
lemma Gemini.sendMessage_delays_cases (aliasLookup : Option String → Option String)
    (defaultModel : String) (cache : String → Option Json)
    (attempt : Nat → Except String String) (mo : MessageObject) (options : Options)
    (iopts : InterfaceOptions) :
    (Gemini.sendMessage aliasLookup defaultModel cache attempt mo options iopts).delays = [] ∨
    ∃ cd, Gemini.convertOf mo options = some cd ∧
      (Gemini.sendMessage aliasLookup defaultModel cache attempt mo options iopts).delays =
        (Gemini.attemptLoop attempt (Gemini.responseFormatOf options) iopts.cacheTTL
          (Gemini.cacheKeyOf (Gemini.resolveModel aliasLookup defaultModel mo options) cd)
          iopts.retryMultiplierOf iopts.retryAttemptsOf 0).delays := by
  unfold Gemini.sendMessage
  cases hconv : Gemini.convertOf mo options with
  | none => left; simp
  | some cd =>
    cases htt : ttlTruthy iopts.cacheTTL with
    | false => right; exact ⟨cd, rfl, by simp [htt]⟩
    | true =>
      cases hc : cache (Gemini.cacheKeyOf
          (Gemini.resolveModel aliasLookup defaultModel mo options) cd) with
      | none => right; exact ⟨cd, rfl, by simp [htt, hc]⟩
      | some v =>
        cases hv : v.truthy with
        | false => right; exact ⟨cd, rfl, by simp [htt, hc, hv]⟩
        | true => left; simp [htt, hc, hv]

/-- C2: every backoff delay recorded at (0-indexed) retry position `i` equals
`(i + 1) * retryMultiplier * 1000` milliseconds, and the multiplier resolves to 0.3
when `interfaceOptions` carries no `retryMultiplier` (either shape). -/
theorem backoff_delay_formula (aliasLookup : Option String → Option String)
    (defaultModel : String) (cache : String → Option Json)
    (attempt : Nat → Except String String) (mo : MessageObject) (options : Options)
    (iopts : InterfaceOptions) :
    (∀ i d,
      (Gemini.sendMessage aliasLookup defaultModel cache attempt mo options iopts).delays.get? i
          = some d →
      d = ((i : ℚ) + 1) * iopts.retryMultiplierOf * 1000) ∧
    (∀ c r, InterfaceOptions.retryMultiplierOf (.obj c r none) = 0.3) ∧
    (∀ n, InterfaceOptions.retryMultiplierOf (.num n) = 0.3) := by
  refine ⟨?_, fun c r => rfl, fun n => rfl⟩
  intro i d hd
  rcases Gemini.sendMessage_delays_cases aliasLookup defaultModel cache attempt mo
      options iopts with h | ⟨cd, hconv, h⟩
  · rw [h] at hd
    simp at hd
  · rw [h] at hd
    have := Gemini.attemptLoop_delays_get attempt (Gemini.responseFormatOf options)
      iopts.cacheTTL
      (Gemini.cacheKeyOf (Gemini.resolveModel aliasLookup defaultModel mo options) cd)
      iopts.retryMultiplierOf iopts.retryAttemptsOf 0 i d hd
    rw [this]
    push_cast
    ring

/-- C2 witness: one retry with the default multiplier waits
`(0 + 1) * 0.3 * 1000 = 300` milliseconds. -/
theorem backoff_delay_formula_witness :
    (300 : ℚ) = ((0 : ℚ) + 1) *
      InterfaceOptions.retryMultiplierOf (.obj none (some 1) none) * 1000 :=
  (backoff_delay_formula (fun _ => none) "gemini-1.5-flash" (fun _ => none)
    (fun k => if k = 0 then .error "boom" else .ok "hi") ⟨none, [⟨"user", "x"⟩]⟩
    ⟨none, none, none, none, none, none⟩ (.obj none (some 1) none)).1 0 300 (by
      norm_num [Gemini.sendMessage, Gemini.convertOf, Gemini.convertDataStructure,
        Gemini.responseFormatOf, Gemini.maxTokensOf, Gemini.buildGenerationConfigOptions,
        Gemini.forceFirstUser, Gemini.attemptLoop, ttlTruthy, InterfaceOptions.cacheTTL,
        InterfaceOptions.retryMultiplierOf, InterfaceOptions.retryAttemptsOf, jsOrQ])

/-- C3: with caching enabled (truthy cache timeout) and a truthy cached value under
the derived cache key, `sendMessage` returns the cached value with zero provider
invocations, no delay, one cache lookup and no cache store.  (Values this adapter
stores are always truthy, cf. `cache_store_only_truthy_success`.) -/
theorem cache_hit_short_circuits (aliasLookup : Option String → Option String)
    (defaultModel : String) (cache : String → Option Json)
    (attempt : Nat → Except String String) (mo : MessageObject) (options : Options)
    (iopts : InterfaceOptions) (key : String) (v : Json)
    (hkey : Gemini.derivedCacheKey aliasLookup defaultModel mo options = some key)
    (httl : ttlTruthy iopts.cacheTTL = true)
    (hit : cache key = some v) (hv : v.truthy = true) :
    Gemini.sendMessage aliasLookup defaultModel cache attempt mo options iopts =
      ⟨.ok v, 0, [], 1, []⟩ := by
  unfold Gemini.derivedCacheKey at hkey
  obtain ⟨cd, hconv, hk⟩ := Option.map_eq_some'.mp hkey
  unfold Gemini.sendMessage
  rw [hconv]
  simp [httl, hk, hit, hv]

/-- C3 witness: a concrete call with `interfaceOptions = 60` against a cache holding
the truthy value `"cached"` returns it with zero provider invocations. -/
theorem cache_hit_short_circuits_witness :
    Gemini.sendMessage (fun _ => none) "gemini-1.5-flash"
        (fun _ => some (.str "cached")) (fun _ => .error "boom")
        ⟨none, [⟨"user", "x"⟩]⟩ ⟨none, none, none, none, none, none⟩ (.num 60) =
      ⟨.ok (.str "cached"), 0, [], 1, []⟩ :=
  cache_hit_short_circuits (fun _ => none) "gemini-1.5-flash"
    (fun _ => some (.str "cached")) (fun _ => .error "boom")
    ⟨none, [⟨"user", "x"⟩]⟩ ⟨none, none, none, none, none, none⟩ (.num 60)
    ((Gemini.derivedCacheKey (fun _ => none) "gemini-1.5-flash"
        ⟨none, [⟨"user", "x"⟩]⟩ ⟨none, none, none, none, none, none⟩).getD "")
    (.str "cached") rfl (by decide) rfl rfl

/-- Case analysis of where `sendMessage`'s cache stores come from: either none
happened, or they and the result are exactly the retry loop's. -/
lemma Gemini.sendMessage_stores_cases (aliasLookup : Option String → Option String)
    (defaultModel : String) (cache : String → Option Json)
    (attempt : Nat → Except String String) (mo : MessageObject) (options : Options)
    (iopts : InterfaceOptions) :
    (Gemini.sendMessage aliasLookup defaultModel cache attempt mo options iopts).cacheStores
        = [] ∨
    ∃ cd, Gemini.convertOf mo options = some cd ∧
      (Gemini.sendMessage aliasLookup defaultModel cache attempt mo options iopts).cacheStores =
        (Gemini.attemptLoop attempt (Gemini.responseFormatOf options) iopts.cacheTTL
          (Gemini.cacheKeyOf (Gemini.resolveModel aliasLookup defaultModel mo options) cd)
          iopts.retryMultiplierOf iopts.retryAttemptsOf 0).cacheStores ∧
      (Gemini.sendMessage aliasLookup defaultModel cache attempt mo options iopts).result =
        (Gemini.attemptLoop attempt (Gemini.responseFormatOf options) iopts.cacheTTL
          (Gemini.cacheKeyOf (Gemini.resolveModel aliasLookup defaultModel mo options) cd)
          iopts.retryMultiplierOf iopts.retryAttemptsOf 0).result := by
  unfold Gemini.sendMessage
  cases hconv : Gemini.convertOf mo options with
  | none => left; simp
  | some cd =>
    cases htt : ttlTruthy iopts.cacheTTL with
    | false => right; exact ⟨cd, rfl, by simp [htt], by simp [htt]⟩
    | true =>
      cases hc : cache (Gemini.cacheKeyOf
          (Gemini.resolveModel aliasLookup defaultModel mo options) cd) with
      | none => right; exact ⟨cd, rfl, by simp [htt, hc], by simp [htt, hc]⟩
      | some v =>
        cases hv : v.truthy with
        | false =>
          right; exact ⟨cd, rfl, by simp [htt, hc, hv], by simp [htt, hc, hv]⟩
        | true => left; simp [htt, hc, hv]

/-- C4: a cache store happens only when the resolved cache timeout is present and
nonzero and the stored value is exactly the truthy (non-null, non-empty) payload the
call returns; provider failures, null parse results and calls without a timeout
leave the cache unchanged. -/
theorem cache_store_only_truthy_success (aliasLookup : Option String → Option String)
    (defaultModel : String) (cache : String → Option Json)
    (attempt : Nat → Except String String) (mo : MessageObject) (options : Options)
    (iopts : InterfaceOptions) :
    ∀ s ∈ (Gemini.sendMessage aliasLookup defaultModel cache attempt mo
        options iopts).cacheStores,
      (∃ t, iopts.cacheTTL = some t ∧ ¬t = 0 ∧ s.2.2 = t) ∧
      (Gemini.sendMessage aliasLookup defaultModel cache attempt mo options iopts).result =
        .ok s.2.1 ∧
      s.2.1.truthy = true := by
  intro s hs
  rcases Gemini.sendMessage_stores_cases aliasLookup defaultModel cache attempt mo
      options iopts with h | ⟨cd, hconv, hstores, hres⟩
  · rw [h] at hs
    simp at hs
  · rw [hstores] at hs
    have base := Gemini.attemptLoop_stores attempt (Gemini.responseFormatOf options)
      iopts.cacheTTL
      (Gemini.cacheKeyOf (Gemini.resolveModel aliasLookup defaultModel mo options) cd)
      iopts.retryMultiplierOf iopts.retryAttemptsOf 0 s hs
    exact ⟨base.1, by rw [hres]; exact base.2.1, base.2.2.1⟩

/-- C4 witness: a successful call with a 60-second timeout stores exactly its truthy
payload with that timeout, and that payload is what the call returns. -/
theorem cache_store_only_truthy_success_witness :
    (∃ t, InterfaceOptions.cacheTTL (.obj (some 60) none none) = some t ∧ ¬t = 0 ∧
      (60 : ℚ) = t) ∧
    (Gemini.sendMessage (fun _ => none) "gemini-1.5-flash" (fun _ => none)
        (fun _ => .ok "hi") ⟨none, [⟨"user", "x"⟩]⟩
        ⟨none, none, none, none, none, none⟩ (.obj (some 60) none none)).result =
      .ok (.str "hi") ∧
    (Json.str "hi").truthy = true :=
  cache_store_only_truthy_success (fun _ => none) "gemini-1.5-flash" (fun _ => none)
    (fun _ => .ok "hi") ⟨none, [⟨"user", "x"⟩]⟩ ⟨none, none, none, none, none, none⟩
    (.obj (some 60) none none)
    ((Gemini.derivedCacheKey (fun _ => none) "gemini-1.5-flash"
        ⟨none, [⟨"user", "x"⟩]⟩ ⟨none, none, none, none, none, none⟩).getD "",
      .str "hi", (60 : ℚ))
    (List.mem_singleton.mpr rfl)

/-- C5: under `response_format = "json_object"` with the first provider attempt
succeeding with raw text `raw`, an unparseable `raw` yields the JavaScript `null`
result — delivered as a normal return (`Except.ok`), not an exception — and a
parseable `raw` yields exactly the parsed structured value. -/
theorem json_object_soft_fail (aliasLookup : Option String → Option String)
    (defaultModel : String) (cache : String → Option Json)
    (attempt : Nat → Except String String) (mo : MessageObject) (options : Options)
    (iopts : InterfaceOptions) (raw : String)
    (hmsgs : mo.messages ≠ []) (hcache : ∀ k, cache k = none)
    (hrf : options.response_format = some "json_object")
    (hok : attempt 0 = .ok raw) :
    (jsonParse raw = none →
      (Gemini.sendMessage aliasLookup defaultModel cache attempt mo options iopts).result =
        .ok .null) ∧
    (∀ j, jsonParse raw = some j →
      (Gemini.sendMessage aliasLookup defaultModel cache attempt mo options iopts).result =
        .ok j) := by
  obtain ⟨cd, hconv⟩ := Gemini.convertOf_isSome mo options hmsgs
  obtain ⟨hres, -, -, -⟩ := Gemini.sendMessage_no_hit aliasLookup defaultModel cache
    attempt mo options iopts cd hconv hcache
  have hrf' : Gemini.responseFormatOf options = "json_object" := by
    simp [Gemini.responseFormatOf, hrf]
  constructor
  · intro hp
    rw [hres, Gemini.attemptLoop]
    simp [hok, hrf', hp]
  · intro j hp
    rw [hres, Gemini.attemptLoop]
    simp [hok, hrf', hp]

/-- C5 witness: a provider answering with broken JSON yields `null`, and one
answering with a JSON array of one object yields the parsed array. -/
theorem json_object_soft_fail_witness :
    (Gemini.sendMessage (fun _ => none) "gemini-1.5-flash" (fun _ => none)
        (fun _ => .ok "\x7bnot valid json") ⟨none, [⟨"user", "x"⟩]⟩
        ⟨none, none, some "json_object", none, none, none⟩
        (.obj none none none)).result = .ok .null ∧
    (Gemini.sendMessage (fun _ => none) "gemini-1.5-flash" (fun _ => none)
        (fun _ => .ok "[\x7b\"reason\":\"a\"\x7d]") ⟨none, [⟨"user", "x"⟩]⟩
        ⟨none, none, some "json_object", none, none, none⟩
        (.obj none none none)).result = .ok (.arr [.obj [("reason", .str "a")]]) :=
  ⟨(json_object_soft_fail (fun _ => none) "gemini-1.5-flash" (fun _ => none)
      (fun _ => .ok "\x7bnot valid json") ⟨none, [⟨"user", "x"⟩]⟩
      ⟨none, none, some "json_object", none, none, none⟩ (.obj none none none)
      "\x7bnot valid json" (by decide) (fun _ => rfl) rfl rfl).1 rfl,
   (json_object_soft_fail (fun _ => none) "gemini-1.5-flash" (fun _ => none)
      (fun _ => .ok "[\x7b\"reason\":\"a\"\x7d]") ⟨none, [⟨"user", "x"⟩]⟩
      ⟨none, none, some "json_object", none, none, none⟩ (.obj none none none)
      "[\x7b\"reason\":\"a\"\x7d]" (by decide) (fun _ => rfl) rfl rfl).2
     (.arr [.obj [("reason", .str "a")]]) rfl⟩

/-! ### Role alternation and the remaining claims -/

/-- Role checker: `altFrom expectUser roles` holds when `roles` is exactly
`user, assistant, user, ...` from the current parity on. -/
def altFrom : Bool → List String → Bool
  | _, [] => true
  | expectUser, r :: rs =>
    (r == (if expectUser then "user" else "assistant")) && altFrom (!expectUser) rs

/-- Strict role alternation `user, assistant, user, ...` starting with `"user"`. -/
def alternatesUA (roles : List String) : Bool :=
  altFrom true roles

lemma altFrom_relabelFrom (messages : List Message) : ∀ i : Nat,
    altFrom (decide (i % 2 = 0)) ((Writer.relabelFrom i messages).map Message.role)
      = true := by
  induction messages with
  | nil => intro i; rfl
  | cons m ms ih =>
    intro i
    have hpar : decide ((i + 1) % 2 = 0) = !decide (i % 2 = 0) := by
      rcases Nat.mod_two_eq_zero_or_one i with h | h <;> simp [h, Nat.add_mod]
    have hih := ih (i + 1)
    rw [hpar] at hih
    by_cases h2 : i % 2 = 0 <;>
      simp [Writer.relabelFrom, altFrom, h2] at hih ⊢ <;> exact hih

lemma Gemini.forceFirstUser_head_role (l : List HistoryEntry) (h : HistoryEntry)
    (hs : List HistoryEntry) (hl : Gemini.forceFirstUser l = h :: hs) :
    h.role = "user" := by
  cases l with
  | nil => simp [Gemini.forceFirstUser] at hl
  | cons e es =>
    simp only [Gemini.forceFirstUser, List.cons.injEq] at hl
    by_cases he : e.role = "user"
    · rw [← hl.1, if_pos he]
      exact he
    · rw [← hl.1, if_neg he]

/-- C6 counterexample: for the valid input `[user "a", user "b", user "c"]` the
Gemini converter produces history roles `["user", "user"]`, which do not strictly
alternate — the cited normalization step does not enforce alternation. -/
theorem normalize_alternation_cex :
    (Gemini.convertOf ⟨none, [⟨"user", "a"⟩, ⟨"user", "b"⟩, ⟨"user", "c"⟩]⟩
        ⟨none, none, none, none, none, none⟩).map
      (fun cd => cd.history.map HistoryEntry.role) = some ["user", "user"] ∧
    alternatesUA ["user", "user"] = false :=
  ⟨rfl, rfl⟩

/-- C6 amended: the Writer normalizer always yields roles strictly alternating
`user, assistant, ...` from index 0, while the Gemini converter only guarantees that
the first history entry's role is `"user"` — later roles pass through unchanged, so
its output need not alternate. -/
theorem normalize_alternation_amended :
    (∀ messages out, Writer.updateMessageObject messages = some out →
      alternatesUA (out.map Message.role) = true) ∧
    (∀ mo options cd h hs, Gemini.convertOf mo options = some cd →
      cd.history = h :: hs → h.role = "user") := by
  constructor
  · intro messages out hout
    unfold Writer.updateMessageObject Writer.updateMessageObjectCall at hout
    obtain ⟨p, hp, hout2⟩ := Option.map_eq_some'.mp hout
    obtain ⟨fl, hfl, hp2⟩ := Option.map_eq_some'.mp hp
    rw [← hout2, ← hp2]
    simpa [alternatesUA, Writer.relabel] using altFrom_relabelFrom fl 0
  · intro mo options cd h hs hconv hhist
    unfold Gemini.convertOf Gemini.convertDataStructure at hconv
    cases hl : mo.messages.getLast? with
    | none => rw [hl] at hconv; exact absurd hconv (by simp)
    | some last =>
      rw [hl] at hconv
      simp only [Option.some.injEq] at hconv
      rw [← hconv] at hhist
      exact Gemini.forceFirstUser_head_role _ h hs hhist

/-- C6 amended witness: a two-message Writer conversation comes out alternating,
and the Gemini history head for `[assistant "x", user "y"]` has role `"user"`. -/
theorem normalize_alternation_amended_witness :
    alternatesUA ([(⟨"user", "a"⟩ : Message), ⟨"assistant", "b"⟩].map Message.role)
        = true ∧
    (⟨"user", [⟨"x"⟩]⟩ : HistoryEntry).role = "user" :=
  ⟨normalize_alternation_amended.1 [⟨"user", "a"⟩, ⟨"user", "b"⟩]
      [⟨"user", "a"⟩, ⟨"assistant", "b"⟩] rfl,
   normalize_alternation_amended.2 ⟨none, [⟨"assistant", "x"⟩, ⟨"user", "y"⟩]⟩
      ⟨none, none, none, none, none, none⟩
      ((Gemini.convertOf ⟨none, [⟨"assistant", "x"⟩, ⟨"user", "y"⟩]⟩
          ⟨none, none, none, none, none, none⟩).getD ⟨[], "", ⟨0, 0, 0, 0, none⟩⟩)
      ⟨"user", [⟨"x"⟩]⟩ [] rfl rfl⟩

/-- C7: the Writer leading-system rewrites: the exact generic greeting is dropped
when it is the first message (then the synthetic `user`/`"Hello!"` message is
prepended exactly when the next message is again a system message); a leading
non-greeting system message gets the synthetic user message prepended before it; and
a list whose first message is not a system message undergoes neither rewrite. -/
theorem leading_system_rewrites (m : Message) (rest : List Message) :
    (m.role = "system" → m.content = Writer.greetingContent →
      Writer.fixLeading (m :: rest) =
        some (match rest with
          | r :: rs =>
            if r.role = "system" then Writer.helloMessage :: r :: rs else r :: rs
          | [] => [])) ∧
    (m.role = "system" → m.content ≠ Writer.greetingContent →
      Writer.fixLeading (m :: rest) = some (Writer.helloMessage :: m :: rest)) ∧
    (m.role ≠ "system" → Writer.fixLeading (m :: rest) = some (m :: rest)) := by
  refine ⟨?_, ?_, ?_⟩
  · intro h1 h2
    cases rest with
    | nil => simp [Writer.fixLeading, h1, h2]
    | cons r rs =>
      by_cases hr : r.role = "system" <;> simp [Writer.fixLeading, h1, h2, hr]
  · intro h1 h2
    simp [Writer.fixLeading, h1, h2]
  · intro h1
    simp [Writer.fixLeading, h1]

/-- C7 witness: the greeting before a user message is dropped; a user-led list is
left as is. -/
theorem leading_system_rewrites_witness :
    Writer.fixLeading [⟨"system", "You are a helpful assistant."⟩, ⟨"user", "hi"⟩] =
      some [⟨"user", "hi"⟩] ∧
    Writer.fixLeading [⟨"user", "hi"⟩, ⟨"system", "s"⟩] =
      some [⟨"user", "hi"⟩, ⟨"system", "s"⟩] :=
  ⟨(leading_system_rewrites ⟨"system", "You are a helpful assistant."⟩
      [⟨"user", "hi"⟩]).1 rfl rfl,
   (leading_system_rewrites ⟨"user", "hi"⟩ [⟨"system", "s"⟩]).2.2 (by decide)⟩

/-- C8 counterexample: a caller-supplied temperature of 0 does not win — the `||`
merge replaces it with the default 0.9, so "a caller-supplied value always wins,
including 0" is false on the code. -/
theorem caller_zero_loses_cex :
    (Gemini.buildGenerationConfigOptions
        ⟨none, none, none, some 0, none, none⟩).temperature = 0.9 ∧
    (0.9 : ℚ) ≠ 0 := by
  constructor
  · simp [Gemini.buildGenerationConfigOptions, jsOrQ]
  · norm_num

/-- C8 amended: `max_tokens` merges with a destructuring default (absent ↦ 150, any
supplied value — including 0 — wins), while `temperature`, `topP` and `topK` merge
with `||`: absent or 0 fall back to the defaults 0.9, 1 and 1, and only nonzero
supplied values win. -/
theorem defaults_merge_amended (options : Options) :
    (options.max_tokens = none → Gemini.maxTokensOf options = 150) ∧
    (∀ q, options.max_tokens = some q → Gemini.maxTokensOf options = q) ∧
    ((options.temperature = none ∨ options.temperature = some 0) →
      (Gemini.buildGenerationConfigOptions options).temperature = 0.9) ∧
    (∀ q, options.temperature = some q → q ≠ 0 →
      (Gemini.buildGenerationConfigOptions options).temperature = q) ∧
    ((options.topP = none ∨ options.topP = some 0) →
      (Gemini.buildGenerationConfigOptions options).topP = 1) ∧
    (∀ q, options.topP = some q → q ≠ 0 →
      (Gemini.buildGenerationConfigOptions options).topP = q) ∧
    ((options.topK = none ∨ options.topK = some 0) →
      (Gemini.buildGenerationConfigOptions options).topK = 1) ∧
    (∀ q, options.topK = some q → q ≠ 0 →
      (Gemini.buildGenerationConfigOptions options).topK = q) := by
  refine ⟨fun h => by simp [Gemini.maxTokensOf, h],
    fun q h => by simp [Gemini.maxTokensOf, h], fun h => ?_,
    fun q h hq => by simp [Gemini.buildGenerationConfigOptions, jsOrQ, h, hq],
    fun h => ?_,
    fun q h hq => by simp [Gemini.buildGenerationConfigOptions, jsOrQ, h, hq],
    fun h => ?_,
    fun q h hq => by simp [Gemini.buildGenerationConfigOptions, jsOrQ, h, hq]⟩ <;>
  rcases h with h | h <;> simp [Gemini.buildGenerationConfigOptions, jsOrQ, h]

/-- C8 amended witness: supplied `max_tokens = 0` is kept, supplied
`temperature = 0` becomes 0.9, supplied `topK = 2` wins. -/
theorem defaults_merge_amended_witness :
    Gemini.maxTokensOf ⟨none, some 0, none, some 0, none, some 2⟩ = 0 ∧
    (Gemini.buildGenerationConfigOptions
        ⟨none, some 0, none, some 0, none, some 2⟩).temperature = 0.9 ∧
    (Gemini.buildGenerationConfigOptions
        ⟨none, some 0, none, some 0, none, some 2⟩).topK = 2 :=
  ⟨(defaults_merge_amended ⟨none, some 0, none, some 0, none, some 2⟩).2.1 0 rfl,
   (defaults_merge_amended ⟨none, some 0, none, some 0, none, some 2⟩).2.2.1
     (Or.inr rfl),
   (defaults_merge_amended ⟨none, some 0, none, some 0, none, some 2⟩).2.2.2.2.2.2.2
     2 rfl (by norm_num)⟩

/-- C9 counterexample: after normalizing a conversation led by the generic system
greeting, the caller's `messages` array has lost its first element — `shift`
mutated the input in place, so normalization does not leave the caller's message
object unchanged. -/
theorem normalize_mutates_input_cex :
    Writer.callerMessagesAfter
        [⟨"system", "You are a helpful assistant."⟩, ⟨"user", "hi"⟩] =
      some [⟨"user", "hi"⟩] ∧
    some [(⟨"user", "hi"⟩ : Message)] ≠
      some [⟨"system", "You are a helpful assistant."⟩, ⟨"user", "hi"⟩] :=
  ⟨rfl, by decide⟩

/-- C9 amended: the returned object carries a freshly relabeled messages list, but
the caller's array is only left unchanged when the leading message is not a system
message — the leading-system rewrites mutate it in place. -/
theorem normalize_mutation_amended (m : Message) (rest : List Message)
    (h : m.role ≠ "system") :
    Writer.callerMessagesAfter (m :: rest) = some (m :: rest) ∧
    Writer.updateMessageObject (m :: rest) = some (Writer.relabel (m :: rest)) := by
  have hfix : Writer.fixLeading (m :: rest) = some (m :: rest) := by
    simp [Writer.fixLeading, h]
  constructor
  · simp [Writer.callerMessagesAfter, Writer.updateMessageObjectCall, hfix]
  · simp [Writer.updateMessageObject, Writer.updateMessageObjectCall, hfix]

/-- C9 amended witness: a user-led conversation leaves the caller's array intact
and returns the relabeled copy. -/
theorem normalize_mutation_amended_witness :
    Writer.callerMessagesAfter [⟨"user", "a"⟩, ⟨"assistant", "b"⟩] =
      some [⟨"user", "a"⟩, ⟨"assistant", "b"⟩] ∧
    Writer.updateMessageObject [⟨"user", "a"⟩, ⟨"assistant", "b"⟩] =
      some (Writer.relabel [⟨"user", "a"⟩, ⟨"assistant", "b"⟩]) :=
  normalize_mutation_amended ⟨"user", "a"⟩ [⟨"assistant", "b"⟩] (by decide)

lemma Gemini.forceFirstUser_length (l : List HistoryEntry) :
    (Gemini.forceFirstUser l).length = l.length := by
  cases l <;> simp [Gemini.forceFirstUser]

lemma Gemini.forceFirstUser_get?_parts (l : List HistoryEntry) (i : Nat) :
    ((Gemini.forceFirstUser l).get? i).map HistoryEntry.parts =
      (l.get? i).map HistoryEntry.parts := by
  cases l with
  | nil => rfl
  | cons e es =>
    cases i with
    | zero => by_cases he : e.role = "user" <;> simp [Gemini.forceFirstUser, he]
    | succ i => simp [Gemini.forceFirstUser]

lemma Gemini.forceFirstUser_get?_succ (l : List HistoryEntry) (i : Nat) :
    (Gemini.forceFirstUser l).get? (i + 1) = l.get? (i + 1) := by
  cases l <;> simp [Gemini.forceFirstUser]

/-- C10 counterexample: for messages `[assistant "a", user "b"]` the converted
history's roles are `["user"]` while the preceding messages' roles are
`["assistant"]` — the history is not exactly the preceding messages, because the
first history role is rewritten. -/
theorem history_not_exact_cex :
    (Gemini.convertOf ⟨none, [⟨"assistant", "a"⟩, ⟨"user", "b"⟩]⟩
        ⟨none, none, none, none, none, none⟩).map
      (fun cd => cd.history.map HistoryEntry.role) = some ["user"] ∧
    ([(⟨"assistant", "a"⟩ : Message), ⟨"user", "b"⟩].dropLast.map Message.role) =
      ["assistant"] ∧
    (["user"] : List String) ≠ ["assistant"] :=
  ⟨rfl, rfl, by decide⟩

/-- C10 amended: an empty messages list makes `sendMessage` throw the conversion
`TypeError` with zero cache lookups and zero provider invocations; for a non-empty
list the prompt is the last message's content and the history consists of the
preceding messages in wire shape (`parts` carries each content, roles are preserved
from index 1 on), except that the first history role is always `"user"`. -/
theorem empty_messages_and_history_shape (aliasLookup : Option String → Option String)
    (defaultModel : String) (cache : String → Option Json)
    (attempt : Nat → Except String String) (mo : MessageObject) (options : Options)
    (iopts : InterfaceOptions) :
    (mo.messages = [] →
      Gemini.sendMessage aliasLookup defaultModel cache attempt mo options iopts =
        ⟨.error .emptyMessages, 0, [], 0, []⟩) ∧
    (∀ cd last, Gemini.convertOf mo options = some cd →
      mo.messages.getLast? = some last →
      cd.prompt = last.content ∧
      cd.history.length = mo.messages.length - 1 ∧
      (∀ i, (cd.history.get? i).map HistoryEntry.parts =
        (mo.messages.dropLast.get? i).map (fun m => [⟨m.content⟩])) ∧
      (∀ i, (cd.history.get? (i + 1)).map HistoryEntry.role =
        (mo.messages.dropLast.get? (i + 1)).map Message.role) ∧
      (∀ h hs, cd.history = h :: hs → h.role = "user")) := by
  constructor
  · intro hnil
    have hconv : Gemini.convertOf mo options = none := by
      simp [Gemini.convertOf, Gemini.convertDataStructure, hnil]
    unfold Gemini.sendMessage
    rw [hconv]
  · intro cd last hconv hlast
    unfold Gemini.convertOf Gemini.convertDataStructure at hconv
    rw [hlast] at hconv
    simp only [Option.some.injEq] at hconv
    subst hconv
    refine ⟨rfl, ?_, ?_, ?_, ?_⟩
    · simp [Gemini.forceFirstUser_length]
    · intro i
      rw [Gemini.forceFirstUser_get?_parts]
      simp only [List.get?_eq_getElem?, List.getElem?_map, Option.map_map]
      rfl
    · intro i
      rw [Gemini.forceFirstUser_get?_succ]
      simp only [List.get?_eq_getElem?, List.getElem?_map, Option.map_map]
      rfl
    · intro h hs hhist
      exact Gemini.forceFirstUser_head_role _ h hs hhist

/-- C10 amended witness: the empty-list call fails up front with zero lookups and
invocations, and for `[assistant "a", user "b"]` the prompt is `"b"`. -/
theorem empty_messages_and_history_shape_witness :
    Gemini.sendMessage (fun _ => none) "gemini-1.5-flash" (fun _ => none)
        (fun _ => .ok "hi") ⟨none, []⟩ ⟨none, none, none, none, none, none⟩
        (.obj none none none) = ⟨.error .emptyMessages, 0, [], 0, []⟩ ∧
    ((Gemini.convertOf ⟨none, [⟨"assistant", "a"⟩, ⟨"user", "b"⟩]⟩
        ⟨none, none, none, none, none, none⟩).getD
      ⟨[], "", ⟨0, 0, 0, 0, none⟩⟩).prompt = "b" :=
  ⟨(empty_messages_and_history_shape (fun _ => none) "gemini-1.5-flash"
      (fun _ => none) (fun _ => .ok "hi") ⟨none, []⟩
      ⟨none, none, none, none, none, none⟩ (.obj none none none)).1 rfl,
   ((empty_messages_and_history_shape (fun _ => none) "gemini-1.5-flash"
      (fun _ => none) (fun _ => .ok "hi")
      ⟨none, [⟨"assistant", "a"⟩, ⟨"user", "b"⟩]⟩
      ⟨none, none, none, none, none, none⟩ (.obj none none none)).2
     ((Gemini.convertOf ⟨none, [⟨"assistant", "a"⟩, ⟨"user", "b"⟩]⟩
         ⟨none, none, none, none, none, none⟩).getD ⟨[], "", ⟨0, 0, 0, 0, none⟩⟩)
     ⟨"user", "b"⟩ rfl rfl).1⟩

end LlmInterface
